import Mathlib

/-!
Verification of the realtime reconciler of `src/src/pages/NewsDetailPage.tsx`
(news detail page: reaction tallies, comment list, view counter).

Modelling conventions for the shallow embedding:
* TypeScript `T | null` / optional-chaining values are `Option T`; an absent or
  empty (`{}`) row payload on a realtime event is `none`.
* JavaScript numbers holding counters are `Int` (the code only adds and
  subtracts small integers; `Math.max (x - 1) 0` is `max (x - 1) 0`).
* React `useState` cells of the page are collected in one `PageState` record;
  each event handler is a pure function `PageState → PageState`.
* `Array.prototype.sort` with the comparator
  `(a, b) => new Date(a.created_at).getTime() - new Date(b.created_at).getTime()`
  is a stable sort by the parsed-date key; it is embedded as
  `List.insertionSort` (stable) over an arbitrary fixed parse function
  `dateMs : String → Int` standing for `s => new Date(s).getTime()`.
-/

namespace NewsRealtime

/-- Realtime change-event kinds handled by the page
(`payload.eventType` in the source). -/
inductive EventType where
  | INSERT
  | UPDATE
  | DELETE
  | TRUNCATE
deriving DecidableEq, Repr

/-- `type Tag = { name: string | null }` from the source. -/
structure Tag where
  name : Option String
deriving DecidableEq, Repr

/-- `type Picture = { url: string | null }` from the source. -/
structure Picture where
  url : Option String
deriving DecidableEq, Repr

/-- `type NewsComment` from the source: id, news_id, user_name, text,
created_at. -/
structure NewsComment where
  id : String
  news_id : String
  user_name : Option String
  text : Option String
  created_at : String
deriving DecidableEq, Repr

/-- `type LikeRecord` from the source has fields `id`, `news_id`, `is_like`.
The underlying `likes` table row also carries a `user_id` column (the
`handleLikeAction` mutation inserts `{ news_id, is_like, user_id }`); the
field is included here so that spec-level statements about the owning user
can be written down.  The page's handler never reads it. -/
structure LikeRecord where
  id : String
  news_id : String
  is_like : Option Bool
  user_id : Option String
deriving DecidableEq, Repr

/-- `type ViewRecord = { news_id: string; count: number | null }` from the
source. -/
structure ViewRecord where
  news_id : String
  count : Option Int
deriving DecidableEq, Repr

/-- `type NewsDetail` from the source (article as stored in `newsItem`). -/
structure NewsDetail where
  id : String
  title : String
  text : String
  created_at : String
  tags : Option (List Tag)
  pictures : Option (List Picture)
deriving DecidableEq, Repr

/-- A realtime change payload `RealtimePostgresChangesPayload<α>`:
an event kind plus optional after-image (`payload.new`) and before-image
(`payload.old`).  An absent or empty-object image is `none`. -/
structure Payload (α : Type) where
  eventType : EventType
  new : Option α
  old : Option α
deriving DecidableEq, Repr

/-- The page-local state of `NewsDetailPage` that the reconciler touches
(the `useState` cells `newsItem`, `comments`, `likesCount`, `dislikesCount`,
`viewCount`, `loading`, `error`).  Two extra fields:
* `refetchScheduled` models the `void fetchDetails()` call in the TRUNCATE
  branch of `handleLikeChange` (true once a re-fetch has been triggered);
* `userReaction` is posited by the specification (an optional polarity for
  the viewer's own reaction).  The source component declares no such state
  variable, so no handler below ever assigns it; it is included so that the
  spec-level claims about it can be stated and settled. -/
structure PageState where
  newsItem : Option NewsDetail
  comments : List NewsComment
  likesCount : Int
  dislikesCount : Int
  viewCount : Int
  loading : Bool
  error : Option String
  userReaction : Option Bool
  refetchScheduled : Bool
deriving DecidableEq, Repr

/-- `const targetId = payloadNew?.news_id ?? payloadOld?.news_id` followed by
the guard `if (!targetId || targetId !== id) return`: extract the embedded
article identifier of a payload given a `news_id` projection. -/
def payloadTarget {α : Type} (newsIdOf : α → String) (p : Payload α) :
    Option String :=
  match p.new with
  | some r => some (newsIdOf r)
  | none => p.old.map (fun r => newsIdOf r)

/-- The guard `!targetId || targetId !== id` passes (i.e. the handler keeps
processing) exactly when the target is a present, non-empty string equal to
the current article identifier (`!""` is `true` in JavaScript, so an empty
string is also discarded). -/
def guardPass (target : Option String) (id : String) : Bool :=
  match target with
  | none => false
  | some t => !(t = "") && (t = id)

/-- `handleLikeChange` from the source (lines 176-215), as a pure state
transformer: fold one realtime `likes` payload into the counters.
JavaScript truthiness of `is_like : boolean | null` means the `like` branch
is taken exactly when `is_like` is `some true`; `null` falls into the
`dislike` branch.  The TRUNCATE branch (`void fetchDetails()`) is modelled
by setting `refetchScheduled`. -/
def handleLikeChange (id : String) (p : Payload LikeRecord) (s : PageState) :
    PageState :=
  if !(guardPass (payloadTarget (fun r => r.news_id) p) id) then s
  else
    match p.eventType, p.new, p.old with
    | .INSERT, some newLike, _ =>
      if newLike.is_like = some true then
        { s with likesCount := s.likesCount + 1 }
      else
        { s with dislikesCount := s.dislikesCount + 1 }
    | .DELETE, _, some oldLike =>
      if oldLike.is_like = some true then
        { s with likesCount := max (s.likesCount - 1) 0 }
      else
        { s with dislikesCount := max (s.dislikesCount - 1) 0 }
    | .UPDATE, some newLike, some oldLike =>
      if oldLike.is_like = newLike.is_like then s
      else if newLike.is_like = some true then
        { s with likesCount := s.likesCount + 1,
                 dislikesCount := max (s.dislikesCount - 1) 0 }
      else
        { s with dislikesCount := s.dislikesCount + 1,
                 likesCount := max (s.likesCount - 1) 0 }
    | .TRUNCATE, _, _ => { s with refetchScheduled := true }
    | _, _, _ => s

/-- The comparison used by `sortCommentsByDate`, parametrised by the date
parse function `dateMs` (standing for `s => new Date(s).getTime()`). -/
def commentLe (dateMs : String → Int) (a b : NewsComment) : Prop :=
  dateMs a.created_at ≤ dateMs b.created_at

instance (dateMs : String → Int) : DecidableRel (commentLe dateMs) :=
  fun _ _ => inferInstanceAs (Decidable (_ ≤ _))

/-- `sortCommentsByDate` from the source (lines 43-47): copy the list and
sort it ascending by parsed creation date.  `Array.prototype.sort` is
required to be stable, so it is embedded as the stable
`List.insertionSort`. -/
def sortCommentsByDate (dateMs : String → Int) (comments : List NewsComment) :
    List NewsComment :=
  List.insertionSort (commentLe dateMs) comments

/-- The comment-list operation shared by the insert and update branches of
`handleCommentChange`:
`sortCommentsByDate([...prev.filter((c) => c.id !== newComment.id), newComment])`. -/
def upsertComment (dateMs : String → Int) (newComment : NewsComment)
    (prev : List NewsComment) : List NewsComment :=
  sortCommentsByDate dateMs
    ((prev.filter (fun c => decide (c.id ≠ newComment.id))) ++ [newComment])

/-- `handleCommentChange` from the source (lines 217-238), as a pure state
transformer on the comment list. -/
def handleCommentChange (dateMs : String → Int) (id : String)
    (p : Payload NewsComment) (s : PageState) : PageState :=
  if !(guardPass (payloadTarget (fun r => r.news_id) p) id) then s
  else
    match p.eventType, p.new, p.old with
    | .INSERT, some newComment, _ =>
      { s with comments := upsertComment dateMs newComment s.comments }
    | .UPDATE, some newComment, _ =>
      { s with comments := upsertComment dateMs newComment s.comments }
    | .DELETE, _, some oldComment =>
      let next := s.comments.filter (fun c => decide (c.id ≠ oldComment.id))
      { s with comments := next }
    | .TRUNCATE, _, _ => { s with comments := [] }
    | _, _, _ => s

/-- `handleViewChange` from the source (lines 240-260), as a pure state
transformer on the view counter (`newView?.count != null` requires a present
after-image with a non-null count). -/
def handleViewChange (id : String) (p : Payload ViewRecord) (s : PageState) :
    PageState :=
  if !(guardPass (payloadTarget (fun r => r.news_id) p) id) then s
  else if p.eventType = .TRUNCATE then { s with viewCount := 0 }
  else
    match p.new with
    | some newView =>
      match newView.count with
      | some c => { s with viewCount := c }
      | none => s
    | none => s

/-- One multiplexed channel event: the subscription dispatches `likes`
payloads to `handleLikeChange`, `comments` payloads to
`handleCommentChange` and `views` payloads to `handleViewChange`
(source lines 262-277). -/
inductive ChannelEvent where
  | like (p : Payload LikeRecord)
  | comment (p : Payload NewsComment)
  | view (p : Payload ViewRecord)
deriving DecidableEq, Repr

/-- Dispatch one channel event to its handler, as wired up in the
`supabase.channel('news-realtime')` subscription. -/
def processEvent (dateMs : String → Int) (id : String) (e : ChannelEvent)
    (s : PageState) : PageState :=
  match e with
  | .like p => handleLikeChange id p s
  | .comment p => handleCommentChange dateMs id p s
  | .view p => handleViewChange id p s

/-- The embedded article identifier of a channel event, as each handler
computes it (`new?.news_id ?? old?.news_id`). -/
def eventTarget (e : ChannelEvent) : Option String :=
  match e with
  | .like p => payloadTarget (fun r => r.news_id) p
  | .comment p => payloadTarget (fun r => r.news_id) p
  | .view p => payloadTarget (fun r => r.news_id) p

/-- The `views` field of the snapshot response:
`ViewRecord | ViewRecord[] | null | undefined` (`coerceViewCount`'s
parameter type).  `nullish` covers both `null` and `undefined`. -/
inductive ViewsField where
  | nullish
  | single (v : ViewRecord)
  | many (vs : List ViewRecord)
deriving DecidableEq, Repr

/-- `coerceViewCount` from the source (lines 49-59): falsy input gives 0, an
array gives `views[0]?.count ?? 0`, a single record gives
`views.count ?? 0`. -/
def coerceViewCount (views : ViewsField) : Int :=
  match views with
  | .nullish => 0
  | .many vs => ((vs.head?.bind (fun v => v.count)).getD 0)
  | .single v => v.count.getD 0

/-- `initialLikes` from `fetchDetails` (line 131):
`likeRecords.filter((like) => like.is_like).length` — JavaScript truthiness
keeps exactly the rows with `is_like = some true`. -/
def initialLikes (likeRecords : List LikeRecord) : Nat :=
  (likeRecords.filter (fun r => r.is_like = some true)).length

/-- `initialDislikes` from `fetchDetails` (line 132):
`likeRecords.filter((like) => like.is_like === false).length`. -/
def initialDislikes (likeRecords : List LikeRecord) : Nat :=
  (likeRecords.filter (fun r => r.is_like = some false)).length

/-- The data row returned by the snapshot query of `fetchDetails`
(`news` joined with tags, pictures, comments, likes, views). -/
structure SnapshotData where
  id : String
  title : String
  text : String
  created_at : String
  tags : Option (List Tag)
  pictures : Option (List Picture)
  comments : Option (List NewsComment)
  likes : Option (List LikeRecord)
  views : ViewsField
deriving DecidableEq, Repr

/-- Outcome of the snapshot query: a transport error with a message
(`fetchError`), a missing row (`maybeSingle` returned no data), or the
joined data row. -/
inductive FetchResult where
  | failure (message : String)
  | missing
  | success (d : SnapshotData)
deriving DecidableEq, Repr

/-- `fetchDetails` from the source (lines 82-140) as a state transformer:
given the route identifier (`none` models a missing route param, in which
case the function returns immediately) and the awaited query outcome, update
the page state.  The function first sets `loading := true, error := none`,
then on error records the message and stops loading, on a missing row
records `"News article not found."`, and on success replaces `newsItem`,
`comments` (sorted), both counters (counted from the snapshot's like rows)
and `viewCount`. -/
def fetchDetails (dateMs : String → Int) (id : Option String)
    (result : FetchResult) (s : PageState) : PageState :=
  match id with
  | none => s
  | some _ =>
    let s1 := { s with loading := true, error := none }
    match result with
    | .failure msg => { s1 with error := some msg, loading := false }
    | .missing =>
      { s1 with error := some "News article not found.", loading := false }
    | .success d =>
      let item : NewsDetail :=
        { id := d.id, title := d.title, text := d.text,
          created_at := d.created_at, tags := some (d.tags.getD []),
          pictures := some (d.pictures.getD []) }
      { s1 with
          newsItem := some item,
          comments := sortCommentsByDate dateMs (d.comments.getD []),
          likesCount := (initialLikes (d.likes.getD []) : Int),
          dislikesCount := (initialDislikes (d.likes.getD []) : Int),
          viewCount := coerceViewCount d.views,
          loading := false }

/-- The state read and written by the view-increment effect (source lines
146-174): the `hasIncrementedView` ref and the `viewCount` state cell. -/
structure ViewIncState where
  hasIncrementedView : Bool
  viewCount : Int
deriving DecidableEq, Repr

/-- One run of the view-increment effect body (source lines 146-153): if the
route identifier is absent, the page is loading, or the guard ref is already
set, nothing happens; otherwise the ref is set and a single upsert request
with `count = viewCount + 1` is issued (the returned `Option Int` is the
`nextCount` carried by the request, `none` meaning no request was made). -/
def viewEffectStep (idPresent : Bool) (loading : Bool) (s : ViewIncState) :
    ViewIncState × Option Int :=
  if !idPresent || loading || s.hasIncrementedView then (s, none)
  else ({ s with hasIncrementedView := true }, some (s.viewCount + 1))

/-- The awaited outcome of the view-increment upsert: an error, or a
response whose `count` may be null/absent (`data?.count`). -/
inductive ViewResponse where
  | failure
  | ok (count : Option Int)
deriving DecidableEq, Repr

/-- Applying the upsert response (source lines 161-170): an error leaves the
count unchanged (only logged); a response with a non-null count replaces
`viewCount`; otherwise `viewCount` becomes the captured `nextCount`. -/
def applyViewResponse (nextCount : Int) (resp : ViewResponse)
    (s : ViewIncState) : ViewIncState :=
  match resp with
  | .failure => s
  | .ok (some c) => { s with viewCount := c }
  | .ok none => { s with viewCount := nextCount }

/-- Run the view-increment effect once per re-render, for a fixed present
route identifier: each list entry is the `loading` value at that render.
Returns the final state and how many increment requests were issued. -/
def runViewEffects (s : ViewIncState) : List Bool → ViewIncState × Nat
  | [] => (s, 0)
  | loading :: rest =>
    let out := viewEffectStep true loading s
    let tail := runViewEffects out.1 rest
    (tail.1, (if out.2.isSome then 1 else 0) + tail.2)

/-- Specification-side reference semantics of one reaction change event: the
list of currently-live rows of the `likes` relation (for the viewed
article's history).  A genuine event of the relation's history applies
consistently: an insert brings a fresh identifier, an update's before-image
is the stored row, and a delete's before-image is a stored row.  `none`
marks a sequence that is not a valid history. -/
def stepRows (rows : List LikeRecord) (p : Payload LikeRecord) :
    Option (List LikeRecord) :=
  match p.eventType, p.new, p.old with
  | .INSERT, some r, none =>
    if rows.all (fun x => decide (x.id ≠ r.id)) then some (r :: rows) else none
  | .UPDATE, some r, some o =>
    if o ∈ rows ∧ r.id = o.id then
      some (r :: rows.filter (fun x => decide (x.id ≠ o.id)))
    else none
  | .DELETE, none, some o =>
    if o ∈ rows then some (rows.filter (fun x => decide (x.id ≠ o.id)))
    else none
  | _, _, _ => none

/-- Fold `stepRows` over an event sequence, starting from a given set of
live rows; `some rows` exactly when the sequence is a valid history. -/
def foldRows (rows : List LikeRecord) :
    List (Payload LikeRecord) → Option (List LikeRecord)
  | [] => some rows
  | p :: rest =>
    match stepRows rows p with
    | some rows2 => foldRows rows2 rest
    | none => none

/-- Insert a comment after every list entry whose key is less than or equal
to its own: where a stable sort places an element appended at the end of the
input.  Used to reason about `sortCommentsByDate`. -/
def pushLast (dateMs : String → Int) (c : NewsComment) :
    List NewsComment → List NewsComment
  | [] => [c]
  | b :: t =>
    if commentLe dateMs b c then b :: pushLast dateMs c t
    else c :: b :: t

/-- A concrete like-reaction row on article `a1`, used when evaluating the
claims at specific inputs. -/
def rLike : LikeRecord :=
  { id := "r1", news_id := "a1", is_like := some true, user_id := none }

/-- A concrete page state used when evaluating the claims at specific
inputs. -/
def baseState : PageState :=
  { newsItem := none, comments := [], likesCount := 0, dislikesCount := 0,
    viewCount := 0, loading := false, error := none, userReaction := none,
    refetchScheduled := false }

/-- A concrete comment (on article `a1`) used when evaluating the claims at
specific inputs. -/
def mkComment (i t : String) : NewsComment :=
  { id := i, news_id := "a1", user_name := none, text := none,
    created_at := t }

/-- A concrete, computable stand-in for the date-parse function used when
evaluating the claims at specific inputs (string length as the parsed
time). -/
def lenMs (t : String) : Int :=
  (t.toList.length : Int)

instance (dateMs : String → Int) : IsTotal NewsComment (commentLe dateMs) :=
  ⟨fun a b => le_total (dateMs a.created_at) (dateMs b.created_at)⟩

instance (dateMs : String → Int) : IsTrans NewsComment (commentLe dateMs) :=
  ⟨fun _ _ _ hab hbc => le_trans hab hbc⟩

/-! ## Helper lemmas -/

/-- The article-identifier guard fails whenever the embedded target is not
exactly the current identifier. -/
theorem guardPass_eq_false {t : Option String} {id : String}
    (h : t ≠ some id) : guardPass t id = false := by
  cases t with
  | none => rfl
  | some v =>
    have hv : ¬ v = id := fun hvi => h (by rw [hvi])
    simp [guardPass, hv]

/-- The article-identifier guard passes for a present, non-empty target
equal to the current identifier. -/
theorem guardPass_eq_true {id : String} (h : id ≠ "") :
    guardPass (some id) id = true := by
  simp [guardPass, h]

/-- Once the `hasIncrementedView` ref is set, re-running the view-increment
effect never issues another request and never clears the ref. -/
theorem runViewEffects_of_incremented (invs : List Bool) :
    ∀ s : ViewIncState, s.hasIncrementedView = true →
      (runViewEffects s invs).2 = 0 ∧
      (runViewEffects s invs).1.hasIncrementedView = true := by
  induction invs with
  | nil => intro s hs; exact ⟨rfl, hs⟩
  | cons l rest ih =>
    intro s hs
    have hstep : viewEffectStep true l s = (s, none) := by
      simp [viewEffectStep, hs]
    simp only [runViewEffects, hstep]
    simpa using ih s hs

/-- One folding step of `handleLikeChange` keeps both counters
non-negative. -/
theorem handleLikeChange_nonneg (id : String) (p : Payload LikeRecord)
    (s : PageState) (hl : 0 ≤ s.likesCount) (hd : 0 ≤ s.dislikesCount) :
    0 ≤ (handleLikeChange id p s).likesCount ∧
    0 ≤ (handleLikeChange id p s).dislikesCount := by
  unfold handleLikeChange
  split
  · exact ⟨hl, hd⟩
  · split
    · split <;> exact ⟨by dsimp only; omega, by dsimp only; omega⟩
    · split <;> constructor <;> simp <;> omega
    · split
      · exact ⟨hl, hd⟩
      · split <;> constructor <;> simp <;> omega
    · exact ⟨hl, hd⟩
    · exact ⟨hl, hd⟩

/-! ## Claim theorems -/

/-- C1: the spec claims that a bulk-clear (TRUNCATE) event on the reactions
relation resets both counters to 0, clears the user reaction, and triggers
a full re-fetch of the snapshot.  The code discards such an event instead:
a bulk-clear payload carries no row images, so `targetId` is absent and the
guard `if (!targetId || targetId !== id) return` fires before the TRUNCATE
branch (`void fetchDetails()`) can run.  Evaluated at a concrete state with
non-zero counters: nothing changes, the counters stay 2 and 3, and no
re-fetch is scheduled. -/
theorem c1_bulk_clear_discarded_by_guard :
    handleLikeChange "a1" ⟨.TRUNCATE, none, none⟩
        { baseState with likesCount := 2, dislikesCount := 3 }
      = { baseState with likesCount := 2, dislikesCount := 3 } ∧
    (handleLikeChange "a1" ⟨.TRUNCATE, none, none⟩
        { baseState with likesCount := 2, dislikesCount := 3 }).likesCount = 2 ∧
    (handleLikeChange "a1" ⟨.TRUNCATE, none, none⟩
        { baseState with likesCount := 2, dislikesCount := 3 }).refetchScheduled
      = false := by
  decide

/-- C3: any channel event (reaction, comment, or view-counter) whose
embedded article identifier is not the currently-viewed identifier leaves
the whole page state unchanged. -/
theorem c3_mismatched_event_leaves_state_unchanged (dateMs : String → Int)
    (id : String) (e : ChannelEvent) (s : PageState)
    (h : eventTarget e ≠ some id) :
    processEvent dateMs id e s = s := by
  cases e with
  | like p =>
    have h2 : payloadTarget (fun r => r.news_id) p ≠ some id := h
    simp [processEvent, handleLikeChange, guardPass_eq_false h2]
  | comment p =>
    have h2 : payloadTarget (fun r => r.news_id) p ≠ some id := h
    simp [processEvent, handleCommentChange, guardPass_eq_false h2]
  | view p =>
    have h2 : payloadTarget (fun r => r.news_id) p ≠ some id := h
    simp [processEvent, handleViewChange, guardPass_eq_false h2]

/-- Witness for C3: a like insert for article `b2` is ignored while viewing
article `a1`. -/
theorem c3_witness :
    eventTarget (.like ⟨.INSERT,
        some { id := "r1", news_id := "b2", is_like := some true,
               user_id := none }, none⟩) ≠ some "a1" ∧
    processEvent (fun _ => 0) "a1"
        (.like ⟨.INSERT,
          some { id := "r1", news_id := "b2", is_like := some true,
                 user_id := none }, none⟩) baseState
      = baseState :=
  ⟨by decide,
   c3_mismatched_event_leaves_state_unchanged (fun _ => 0) "a1" _ baseState
     (by decide)⟩

/-- C4: folding any sequence of reaction change events — including deletes
with no matching prior insert — keeps both counters non-negative at every
step (every prefix of a sequence is itself a sequence, so the statement
over all sequences covers each intermediate state). -/
theorem c4_counters_never_negative (id : String)
    (events : List (Payload LikeRecord)) (s : PageState)
    (hl : 0 ≤ s.likesCount) (hd : 0 ≤ s.dislikesCount) :
    0 ≤ (events.foldl (fun st p => handleLikeChange id p st) s).likesCount ∧
    0 ≤ (events.foldl (fun st p => handleLikeChange id p st) s).dislikesCount := by
  induction events generalizing s with
  | nil => exact ⟨hl, hd⟩
  | cons p rest ih =>
    have hp := handleLikeChange_nonneg id p s hl hd
    simpa [List.foldl_cons] using ih _ hp.1 hp.2

/-- Witness for C4: a delete with no prior insert, folded from the zero
state, leaves both counters at 0. -/
theorem c4_witness :
    (0 ≤ baseState.likesCount ∧ 0 ≤ baseState.dislikesCount) ∧
    (0 ≤ ([(⟨.DELETE, none,
          some { id := "r9", news_id := "a1", is_like := some true,
                 user_id := none }⟩ : Payload LikeRecord)].foldl
          (fun st p => handleLikeChange "a1" p st) baseState).likesCount ∧
     0 ≤ ([(⟨.DELETE, none,
          some { id := "r9", news_id := "a1", is_like := some true,
                 user_id := none }⟩ : Payload LikeRecord)].foldl
          (fun st p => handleLikeChange "a1" p st) baseState).dislikesCount) :=
  ⟨⟨by decide, by decide⟩,
   c4_counters_never_negative "a1" _ baseState (by decide) (by decide)⟩

/-- C7 counterexample: in the spec's own scenario — the viewer `u1` inserts
the like reaction `r1` on the viewed article `a1` — the claim demands that
`userReaction` become the event's polarity (`some true`).  The component
declares no user-reaction state at all, so after the event the value is
still `none`. -/
theorem c7_counterexample :
    (handleLikeChange "a1"
        ⟨.INSERT,
          some { id := "r1", news_id := "a1", is_like := some true,
                 user_id := some "u1" }, none⟩ baseState).userReaction
      ≠ some true ∧
    baseState.userReaction = none := by
  decide

/-- C7 (amended): the reconciler maintains no user-reaction value: no
channel event ever changes the `userReaction` component — in particular a
reaction insert whose owning user is the viewer does not set it (and
neither does any other event). -/
theorem c7_no_user_reaction_maintained (dateMs : String → Int) (id : String)
    (e : ChannelEvent) (s : PageState) :
    (processEvent dateMs id e s).userReaction = s.userReaction := by
  cases e with
  | like p =>
    simp only [processEvent]
    unfold handleLikeChange
    split
    · rfl
    · split <;> (try split) <;> (try split) <;> rfl
  | comment p =>
    simp only [processEvent]
    unfold handleCommentChange
    split
    · rfl
    · split <;> rfl
  | view p =>
    simp only [processEvent]
    unfold handleViewChange
    split
    · rfl
    · split
      · rfl
      · split <;> (try split) <;> rfl

/-- C9: a reaction insert for the viewed article whose `is_like` field is
null falls into the falsy branch of `if (newLike.is_like)` and increments
`dislikesCount`, while the snapshot counters of `fetchDetails`
(`is_like` truthy / `is_like === false`) count a null-polarity row as
neither a like nor a dislike. -/
theorem c9_null_polarity_stream_vs_snapshot (id : String) (r : LikeRecord)
    (s : PageState) (rows : List LikeRecord)
    (hn : r.is_like = none) (ha : r.news_id = id) (hid : id ≠ "") :
    handleLikeChange id ⟨.INSERT, some r, none⟩ s
      = { s with dislikesCount := s.dislikesCount + 1 } ∧
    initialLikes (r :: rows) = initialLikes rows ∧
    initialDislikes (r :: rows) = initialDislikes rows := by
  refine ⟨?_, ?_, ?_⟩
  · have hg : guardPass
        (payloadTarget (fun x => x.news_id)
          (⟨.INSERT, some r, none⟩ : Payload LikeRecord)) id = true := by
      simp only [payloadTarget]
      rw [ha]
      exact guardPass_eq_true hid
    simp [handleLikeChange, hg, hn]
  · simp [initialLikes, hn]
  · simp [initialDislikes, hn]

/-- Witness for C9: the concrete null-polarity insert on article `a1`. -/
theorem c9_witness :
    ({ id := "r1", news_id := "a1", is_like := none,
       user_id := none } : LikeRecord).is_like = none ∧
    (handleLikeChange "a1"
        ⟨.INSERT,
          some { id := "r1", news_id := "a1", is_like := none,
                 user_id := none }, none⟩ baseState
      = { baseState with dislikesCount := baseState.dislikesCount + 1 } ∧
     initialLikes
        [{ id := "r1", news_id := "a1", is_like := none, user_id := none }]
       = initialLikes [] ∧
     initialDislikes
        [{ id := "r1", news_id := "a1", is_like := none, user_id := none }]
       = initialDislikes []) :=
  ⟨rfl,
   c9_null_polarity_stream_vs_snapshot "a1" _ baseState [] rfl rfl
     (by decide)⟩

/-- C10: if the snapshot query fails, `fetchDetails` only records the error
message and stops loading; `newsItem`, `comments`, both counters and
`viewCount` are exactly as before — the fetch is atomic on error. -/
theorem c10_fetch_error_is_atomic (dateMs : String → Int) (id msg : String)
    (s : PageState) :
    fetchDetails dateMs (some id) (.failure msg) s
      = { s with error := some msg, loading := false } :=
  rfl

/-- C8: for a fixed present article identifier, any number of re-renders of
the view-increment effect issues at most one request (the
`hasIncrementedView` ref guards it); the request issued from a
not-yet-incremented, not-loading state carries `viewCount + 1`; a response
carrying a count replaces `viewCount` with it, and a response without a
count falls back to the captured `nextCount` (the prior value plus one). -/
theorem c8_view_increment_once_with_fallback (s : ViewIncState)
    (invs : List Bool) (v n c : Int) (s2 : ViewIncState) :
    (runViewEffects s invs).2 ≤ 1 ∧
    viewEffectStep true false ⟨false, v⟩ = (⟨true, v⟩, some (v + 1)) ∧
    applyViewResponse n (.ok (some c)) s2 = { s2 with viewCount := c } ∧
    applyViewResponse n (.ok none) s2 = { s2 with viewCount := n } := by
  refine ⟨?_, rfl, rfl, rfl⟩
  induction invs generalizing s with
  | nil => simp [runViewEffects]
  | cons l rest ih =>
    by_cases hflag : s.hasIncrementedView = true
    · have h0 := runViewEffects_of_incremented (l :: rest) s hflag
      omega
    · cases l with
      | true =>
        have hstep : viewEffectStep true true s = (s, none) := by
          simp [viewEffectStep]
        simp only [runViewEffects, hstep, Option.isSome_none]
        simpa using ih s
      | false =>
        have hflag2 : s.hasIncrementedView = false := by
          simpa using hflag
        have hstep : viewEffectStep true false s
            = ({ s with hasIncrementedView := true },
               some (s.viewCount + 1)) := by
          simp [viewEffectStep, hflag2]
        have h0 : (runViewEffects { s with hasIncrementedView := true }
            rest).2 = 0 :=
          (runViewEffects_of_incremented rest
            { s with hasIncrementedView := true } rfl).1
        simp [runViewEffects, hstep, h0]

/-! ## Stable-sort lemmas for the comment list -/

/-- `orderedInsert` (inserting before equal keys) commutes with `pushLast`
(inserting after equal keys). -/
theorem orderedInsert_pushLast (dateMs : String → Int) (x c : NewsComment) :
    ∀ S : List NewsComment,
      List.orderedInsert (commentLe dateMs) x (pushLast dateMs c S)
        = pushLast dateMs c (List.orderedInsert (commentLe dateMs) x S) := by
  intro S
  induction S with
  | nil =>
    by_cases h : commentLe dateMs x c <;>
      simp [pushLast, List.orderedInsert, h]
  | cons b t ih =>
    by_cases hbc : commentLe dateMs b c
    · by_cases hxb : commentLe dateMs x b
      · have hxc : commentLe dateMs x c := le_trans hxb hbc
        simp [pushLast, List.orderedInsert, hbc, hxb, hxc]
      · simp [pushLast, List.orderedInsert, hbc, hxb, ih]
    · have hcb : commentLe dateMs c b := le_of_not_le hbc
      by_cases hxc : commentLe dateMs x c
      · have hxb : commentLe dateMs x b := le_trans hxc hcb
        simp [pushLast, List.orderedInsert, hbc, hxc, hxb]
      · by_cases hxb : commentLe dateMs x b <;>
          simp [pushLast, List.orderedInsert, hbc, hxc, hxb]

/-- A stable sort of a list with one element appended places that element
after every entry with a key less than or equal to its own. -/
theorem insertionSort_append_singleton (dateMs : String → Int)
    (c : NewsComment) :
    ∀ X : List NewsComment,
      List.insertionSort (commentLe dateMs) (X ++ [c])
        = pushLast dateMs c (List.insertionSort (commentLe dateMs) X) := by
  intro X
  induction X with
  | nil => simp [pushLast, List.insertionSort]
  | cons x X2 ih =>
    have h1 : List.insertionSort (commentLe dateMs) ((x :: X2) ++ [c])
        = List.orderedInsert (commentLe dateMs) x
            (List.insertionSort (commentLe dateMs) (X2 ++ [c])) := rfl
    have h2 : List.insertionSort (commentLe dateMs) (x :: X2)
        = List.orderedInsert (commentLe dateMs) x
            (List.insertionSort (commentLe dateMs) X2) := rfl
    rw [h1, ih, h2, orderedInsert_pushLast]

/-- Filtering with a predicate that rejects the pushed element undoes
`pushLast`. -/
theorem filter_pushLast (dateMs : String → Int) (c : NewsComment)
    (p : NewsComment → Bool) (hc : p c = false) :
    ∀ S : List NewsComment,
      (pushLast dateMs c S).filter p = S.filter p := by
  intro S
  induction S with
  | nil => simp [pushLast, hc]
  | cons b t ih =>
    by_cases hbc : commentLe dateMs b c <;>
      simp [pushLast, hbc, List.filter_cons, ih, hc]

/-- The insert/update comment operation is idempotent on the list level. -/
theorem upsertComment_idempotent (dateMs : String → Int) (c : NewsComment)
    (l : List NewsComment) :
    upsertComment dateMs c (upsertComment dateMs c l)
      = upsertComment dateMs c l := by
  have hpc : (fun x : NewsComment => decide (x.id ≠ c.id)) c = false := by
    simp
  have hfilter :
      (upsertComment dateMs c l).filter
          (fun x : NewsComment => decide (x.id ≠ c.id))
        = List.insertionSort (commentLe dateMs)
            (l.filter (fun x : NewsComment => decide (x.id ≠ c.id))) := by
    rw [upsertComment, sortCommentsByDate,
      insertionSort_append_singleton dateMs c,
      filter_pushLast dateMs c (fun x : NewsComment => decide (x.id ≠ c.id))
        hpc]
    apply List.filter_eq_self.mpr
    intro a ha
    rcases (List.mem_filter.mp ((List.mem_insertionSort _).mp ha)) with ⟨-, hp⟩
    exact hp
  rw [upsertComment, sortCommentsByDate, hfilter,
    insertionSort_append_singleton dateMs c,
    (List.sorted_insertionSort (commentLe dateMs) _).insertionSort_eq,
    ← insertionSort_append_singleton dateMs c]
  rfl

/-- `upsertComment` keeps the comment identifiers duplicate-free. -/
theorem upsertComment_nodup (dateMs : String → Int) (c : NewsComment)
    (l : List NewsComment)
    (hnd : (l.map (fun x => x.id)).Nodup) :
    ((upsertComment dateMs c l).map (fun x => x.id)).Nodup := by
  have hperm :
      ((upsertComment dateMs c l).map (fun x => x.id)).Perm
        (((l.filter (fun x : NewsComment => decide (x.id ≠ c.id)))
            ++ [c]).map (fun x => x.id)) :=
    (List.perm_insertionSort _ _).map _
  rw [hperm.nodup_iff, List.map_append]
  refine List.Nodup.append ?_ (by simp) ?_
  · exact List.Nodup.sublist ((List.filter_sublist l).map _) hnd
  · intro a ha hb
    simp only [List.map_cons, List.map_nil, List.mem_singleton] at hb
    rcases List.mem_map.mp ha with ⟨x, hx, hxa⟩
    rcases List.mem_filter.mp hx with ⟨-, hp⟩
    have hne : x.id ≠ c.id := by simpa using hp
    exact hne (hxa.trans hb)

/-- One comment event preserves sortedness and identifier uniqueness of the
comment list. -/
theorem handleCommentChange_preserves (dateMs : String → Int) (id : String)
    (p : Payload NewsComment) (s : PageState)
    (hs : s.comments.Sorted (commentLe dateMs))
    (hnd : (s.comments.map (fun c => c.id)).Nodup) :
    ((handleCommentChange dateMs id p s).comments).Sorted (commentLe dateMs)
      ∧ (((handleCommentChange dateMs id p s).comments).map
          (fun c => c.id)).Nodup := by
  unfold handleCommentChange
  split
  · exact ⟨hs, hnd⟩
  · split
    · exact ⟨List.sorted_insertionSort _ _, upsertComment_nodup _ _ _ hnd⟩
    · exact ⟨List.sorted_insertionSort _ _, upsertComment_nodup _ _ _ hnd⟩
    · exact ⟨List.Pairwise.filter _ hs,
        List.Nodup.sublist ((List.filter_sublist s.comments).map _) hnd⟩
    · simp
    · exact ⟨hs, hnd⟩

/-- C5: starting from a sorted, identifier-unique comment list (as the
snapshot provides), after any sequence of comment events the list is still
sorted ascending by creation timestamp and contains no two entries with the
same identifier. -/
theorem c5_comments_sorted_and_unique (dateMs : String → Int) (id : String)
    (events : List (Payload NewsComment)) (s : PageState)
    (hs : s.comments.Sorted (commentLe dateMs))
    (hnd : (s.comments.map (fun c => c.id)).Nodup) :
    ((events.foldl (fun st p => handleCommentChange dateMs id p st)
        s).comments).Sorted (commentLe dateMs) ∧
    (((events.foldl (fun st p => handleCommentChange dateMs id p st)
        s).comments).map (fun c => c.id)).Nodup := by
  induction events generalizing s with
  | nil => exact ⟨hs, hnd⟩
  | cons p rest ih =>
    have hp := handleCommentChange_preserves dateMs id p s hs hnd
    simpa [List.foldl_cons] using ih _ hp.1 hp.2

/-- Witness for C5: two inserts with out-of-order timestamps (keys via
string length) end sorted and duplicate-free. -/
theorem c5_witness :
    ((baseState.comments).Sorted (commentLe lenMs) ∧
      ((baseState.comments).map (fun c => c.id)).Nodup) ∧
    ((([⟨.INSERT, some (mkComment "c1" "yy"), none⟩,
        ⟨.INSERT, some (mkComment "c2" "x"), none⟩] :
          List (Payload NewsComment)).foldl
        (fun st p => handleCommentChange lenMs "a1" p st)
        baseState).comments.Sorted (commentLe lenMs) ∧
     ((([⟨.INSERT, some (mkComment "c1" "yy"), none⟩,
        ⟨.INSERT, some (mkComment "c2" "x"), none⟩] :
          List (Payload NewsComment)).foldl
        (fun st p => handleCommentChange lenMs "a1" p st)
        baseState).comments.map (fun c => c.id)).Nodup) :=
  ⟨⟨List.sorted_nil, List.nodup_nil⟩,
   c5_comments_sorted_and_unique lenMs "a1" _ baseState List.sorted_nil
     List.nodup_nil⟩

/-- C6: applying the same comment insert event twice yields the same final
comment list — same entries in the same order — as applying it once. -/
theorem c6_comment_insert_idempotent (dateMs : String → Int) (id : String)
    (p : Payload NewsComment) (s : PageState)
    (hk : p.eventType = .INSERT) :
    (handleCommentChange dateMs id p
        (handleCommentChange dateMs id p s)).comments
      = (handleCommentChange dateMs id p s).comments := by
  by_cases hg : guardPass (payloadTarget (fun r => r.news_id) p) id = true
  · rcases hnew : p.new with _ | c
    · have h1 : ∀ t : PageState, handleCommentChange dateMs id p t = t := by
        intro t
        unfold handleCommentChange
        simp [hg, hk, hnew]
      rw [h1, h1]
    · have h1 : ∀ t : PageState, handleCommentChange dateMs id p t
          = { t with comments := upsertComment dateMs c t.comments } := by
        intro t
        unfold handleCommentChange
        simp [hg, hk, hnew]
      rw [h1, h1]
      exact upsertComment_idempotent dateMs c s.comments
  · have hg2 : guardPass (payloadTarget (fun r => r.news_id) p) id
        = false := by
      simpa using hg
    have h1 : ∀ t : PageState, handleCommentChange dateMs id p t = t := by
      intro t
      unfold handleCommentChange
      simp [hg2]
    rw [h1, h1]

/-- Witness for C6: inserting the same comment twice into a one-element
list gives the same list as inserting it once. -/
theorem c6_witness :
    ((⟨.INSERT, some (mkComment "c1" "x"), none⟩ :
        Payload NewsComment).eventType = .INSERT) ∧
    (handleCommentChange lenMs "a1" ⟨.INSERT, some (mkComment "c1" "x"), none⟩
        (handleCommentChange lenMs "a1"
          ⟨.INSERT, some (mkComment "c1" "x"), none⟩
          { baseState with comments := [mkComment "c0" "x"] })).comments
      = (handleCommentChange lenMs "a1"
          ⟨.INSERT, some (mkComment "c1" "x"), none⟩
          { baseState with comments := [mkComment "c0" "x"] }).comments :=
  ⟨rfl, c6_comment_insert_idempotent lenMs "a1" _ _ rfl⟩

/-! ## Live-row reference semantics for the reaction counters -/

/-- Removing a stored row by identifier from an identifier-unique row list
removes exactly that row from any filtered count. -/
theorem length_filter_remove (q : LikeRecord → Bool) (o : LikeRecord) :
    ∀ rows : List LikeRecord, o ∈ rows →
      ((rows.map (fun x => x.id)).Nodup) →
      (rows.filter q).length
        = ((rows.filter (fun x => decide (x.id ≠ o.id))).filter q).length
          + (if q o then 1 else 0) := by
  intro rows
  induction rows with
  | nil => intro ho; cases ho
  | cons b t ih =>
    intro ho hnd
    rw [List.map_cons, List.nodup_cons] at hnd
    by_cases hbo : b.id = o.id
    · have hob : o = b := by
        rcases List.mem_cons.mp ho with hob | hot
        · exact hob
        · exact absurd (hbo ▸ List.mem_map.mpr ⟨o, hot, rfl⟩) hnd.1
      subst hob
      have hall : ∀ a ∈ t, ¬ a.id = o.id := by
        intro a hat hcontra
        exact hnd.1 (hcontra ▸ List.mem_map.mpr ⟨a, hat, rfl⟩)
      have h1 : (o :: t).filter (fun x => decide (x.id ≠ o.id)) = t := by
        rw [List.filter_cons]
        simpa using hall
      rw [h1]
      by_cases hq : q o <;> simp [List.filter_cons, hq]
    · have hot : o ∈ t := by
        rcases List.mem_cons.mp ho with hob | hot
        · exact absurd (congrArg (fun x => x.id) hob.symm) hbo
        · exact hot
      have hrec := ih hot hnd.2
      by_cases hqb : q b
      · simp [List.filter_cons, hbo, hqb, hrec]
        omega
      · simp [List.filter_cons, hbo, hqb, hrec]

/-- One valid history step: folding a genuine reaction event through
`handleLikeChange` keeps the counters equal to the live-row counts of the
reference semantics and keeps the live rows identifier-unique. -/
theorem c2_step (id : String) (p : Payload LikeRecord)
    (rows rows2 : List LikeRecord) (s : PageState)
    (hstep : stepRows rows p = some rows2)
    (hnn : ∀ r : LikeRecord, p.new = some r ∨ p.old = some r →
      r.is_like ≠ none)
    (hart : ∀ r : LikeRecord, p.new = some r ∨ p.old = some r →
      r.news_id = id)
    (hid : id ≠ "")
    (hl : s.likesCount = (initialLikes rows : Int))
    (hd : s.dislikesCount = (initialDislikes rows : Int))
    (hnd : (rows.map (fun x => x.id)).Nodup) :
    (handleLikeChange id p s).likesCount = (initialLikes rows2 : Int) ∧
    (handleLikeChange id p s).dislikesCount
      = (initialDislikes rows2 : Int) ∧
    (rows2.map (fun x => x.id)).Nodup := by
  rcases p with ⟨ek, pnew, pold⟩
  cases ek <;> rcases pnew with _ | r <;> rcases pold with _ | o <;>
      simp only [stepRows] at hstep <;>
    try exact Option.noConfusion hstep
  -- INSERT, new = some r, old = none
  · split_ifs at hstep with hfresh
    · have hr2 : rows2 = r :: rows := (Option.some.inj hstep).symm
      subst hr2
      have hg : guardPass (payloadTarget (fun x => x.news_id)
          (⟨.INSERT, some r, none⟩ : Payload LikeRecord)) id = true := by
        show guardPass (some r.news_id) id = true
        rw [hart r (Or.inl rfl)]
        exact guardPass_eq_true hid
      have hndr : ((r :: rows).map (fun x => x.id)).Nodup := by
        rw [List.map_cons, List.nodup_cons]
        refine ⟨?_, hnd⟩
        intro hmem
        rcases List.mem_map.mp hmem with ⟨x, hx, hxid⟩
        have hne : x.id ≠ r.id := by
          simpa using (List.all_eq_true.mp hfresh) x hx
        exact hne hxid
      rcases hpl : r.is_like with _ | b
      · exact absurd hpl (hnn r (Or.inl rfl))
      · cases b
        · have hh : handleLikeChange id ⟨.INSERT, some r, none⟩ s
              = { s with dislikesCount := s.dislikesCount + 1 } := by
            unfold handleLikeChange
            rw [hg]
            simp [hpl]
          have hcL : initialLikes (r :: rows) = initialLikes rows := by
            simp [initialLikes, List.filter_cons, hpl]
          have hcD : initialDislikes (r :: rows)
              = initialDislikes rows + 1 := by
            simp [initialDislikes, List.filter_cons, hpl]
          rw [hh]
          refine ⟨?_, ?_, hndr⟩
          · show s.likesCount = (initialLikes (r :: rows) : Int)
            rw [hl, hcL]
          · show s.dislikesCount + 1 = (initialDislikes (r :: rows) : Int)
            rw [hd, hcD]
            omega
        · have hh : handleLikeChange id ⟨.INSERT, some r, none⟩ s
              = { s with likesCount := s.likesCount + 1 } := by
            unfold handleLikeChange
            rw [hg]
            simp [hpl]
          have hcL : initialLikes (r :: rows) = initialLikes rows + 1 := by
            simp [initialLikes, List.filter_cons, hpl]
          have hcD : initialDislikes (r :: rows) = initialDislikes rows := by
            simp [initialDislikes, List.filter_cons, hpl]
          rw [hh]
          refine ⟨?_, ?_, hndr⟩
          · show s.likesCount + 1 = (initialLikes (r :: rows) : Int)
            rw [hl, hcL]
            omega
          · show s.dislikesCount = (initialDislikes (r :: rows) : Int)
            rw [hd, hcD]
  -- UPDATE, new = some r, old = some o
  · split_ifs at hstep with hcond
    · have hr2 : rows2
          = r :: rows.filter (fun x => decide (x.id ≠ o.id)) :=
        (Option.some.inj hstep).symm
      subst hr2
      have hg : guardPass (payloadTarget (fun x => x.news_id)
          (⟨.UPDATE, some r, some o⟩ : Payload LikeRecord)) id = true := by
        show guardPass (some r.news_id) id = true
        rw [hart r (Or.inl rfl)]
        exact guardPass_eq_true hid
      have hremL := length_filter_remove
        (fun x => decide (x.is_like = some true)) o rows hcond.1 hnd
      have hremD := length_filter_remove
        (fun x => decide (x.is_like = some false)) o rows hcond.1 hnd
      have hndr : ((r :: rows.filter (fun x => decide (x.id ≠ o.id))).map
          (fun x => x.id)).Nodup := by
        rw [List.map_cons, List.nodup_cons]
        constructor
        · intro hmem
          rcases List.mem_map.mp hmem with ⟨x, hx, hxid⟩
          have hxne : x.id ≠ o.id := by
            simpa using (List.mem_filter.mp hx).2
          exact hxne (hxid.trans hcond.2)
        · exact List.Nodup.sublist ((List.filter_sublist rows).map _) hnd
      by_cases heq : o.is_like = r.is_like
      · have hh : handleLikeChange id ⟨.UPDATE, some r, some o⟩ s = s := by
          unfold handleLikeChange
          rw [hg]
          simp [heq]
        have hcL : initialLikes
            (r :: rows.filter (fun x => decide (x.id ≠ o.id)))
              = initialLikes rows := by
          simp only [initialLikes, List.filter_cons, heq] at *
          split <;> rename_i hq
          · rw [List.length_cons, hremL, if_pos hq]
          · rw [hremL, if_neg hq]
            omega
        have hcD : initialDislikes
            (r :: rows.filter (fun x => decide (x.id ≠ o.id)))
              = initialDislikes rows := by
          simp only [initialDislikes, List.filter_cons, heq] at *
          split <;> rename_i hq
          · rw [List.length_cons, hremD, if_pos hq]
          · rw [hremD, if_neg hq]
            omega
        rw [hh]
        exact ⟨by rw [hl, hcL], by rw [hd, hcD], hndr⟩
      · rcases hplr : r.is_like with _ | br
        · exact absurd hplr (hnn r (Or.inl rfl))
        · rcases hplo : o.is_like with _ | bo
          · exact absurd hplo (hnn o (Or.inr rfl))
          · have hdiff : bo ≠ br := by
              intro hcontra
              exact heq (by rw [hplo, hplr, hcontra])
            cases br
            · -- update to dislike; old must be like
              have hbo : bo = true := by
                cases bo
                · exact absurd rfl hdiff
                · rfl
              subst hbo
              have hh : handleLikeChange id ⟨.UPDATE, some r, some o⟩ s
                  = { s with dislikesCount := s.dislikesCount + 1,
                             likesCount := max (s.likesCount - 1) 0 } := by
                unfold handleLikeChange
                rw [hg]
                simp [hplr, hplo]
              have hqLo : (fun x : LikeRecord =>
                  decide (x.is_like = some true)) o = true := by
                simp [hplo]
              have hqDo : (fun x : LikeRecord =>
                  decide (x.is_like = some false)) o = false := by
                simp [hplo]
              rw [hqLo] at hremL
              rw [hqDo] at hremD
              have hcL : (initialLikes rows : Int)
                  = (initialLikes
                      (r :: rows.filter (fun x => decide (x.id ≠ o.id)))
                        : Int) + 1 := by
                simp only [initialLikes, List.filter_cons, hplr] at *
                simp at hremL hremD ⊢
                omega
              have hcD : (initialDislikes
                  (r :: rows.filter (fun x => decide (x.id ≠ o.id)))
                    : Int) = (initialDislikes rows : Int) + 1 := by
                simp only [initialDislikes, List.filter_cons, hplr] at *
                simp at hremL hremD ⊢
                omega
              rw [hh]
              refine ⟨?_, ?_, hndr⟩
              · show max (s.likesCount - 1) 0 = _
                rw [hl]
                omega
              · show s.dislikesCount + 1 = _
                rw [hd]
                omega
            · -- update to like; old must be dislike
              have hbo : bo = false := by
                cases bo
                · rfl
                · exact absurd rfl hdiff
              subst hbo
              have hh : handleLikeChange id ⟨.UPDATE, some r, some o⟩ s
                  = { s with likesCount := s.likesCount + 1,
                             dislikesCount := max (s.dislikesCount - 1) 0 } := by
                unfold handleLikeChange
                rw [hg]
                simp [hplr, hplo]
              have hqLo : (fun x : LikeRecord =>
                  decide (x.is_like = some true)) o = false := by
                simp [hplo]
              have hqDo : (fun x : LikeRecord =>
                  decide (x.is_like = some false)) o = true := by
                simp [hplo]
              rw [hqLo] at hremL
              rw [hqDo] at hremD
              have hcL : (initialLikes
                  (r :: rows.filter (fun x => decide (x.id ≠ o.id)))
                    : Int) = (initialLikes rows : Int) + 1 := by
                simp only [initialLikes, List.filter_cons, hplr] at *
                simp at hremL hremD ⊢
                omega
              have hcD : (initialDislikes rows : Int)
                  = (initialDislikes
                      (r :: rows.filter (fun x => decide (x.id ≠ o.id)))
                        : Int) + 1 := by
                simp only [initialDislikes, List.filter_cons, hplr] at *
                simp at hremL hremD ⊢
                omega
              rw [hh]
              refine ⟨?_, ?_, hndr⟩
              · show s.likesCount + 1 = _
                rw [hl]
                omega
              · show max (s.dislikesCount - 1) 0 = _
                rw [hd]
                omega
  -- DELETE, new = none, old = some o
  · split_ifs at hstep with hmem
    · have hr2 : rows2 = rows.filter (fun x => decide (x.id ≠ o.id)) :=
        (Option.some.inj hstep).symm
      subst hr2
      have hg : guardPass (payloadTarget (fun x => x.news_id)
          (⟨.DELETE, none, some o⟩ : Payload LikeRecord)) id = true := by
        show guardPass (some o.news_id) id = true
        rw [hart o (Or.inr rfl)]
        exact guardPass_eq_true hid
      have hremL := length_filter_remove
        (fun x => decide (x.is_like = some true)) o rows hmem hnd
      have hremD := length_filter_remove
        (fun x => decide (x.is_like = some false)) o rows hmem hnd
      have hndr : ((rows.filter (fun x => decide (x.id ≠ o.id))).map
          (fun x => x.id)).Nodup :=
        List.Nodup.sublist ((List.filter_sublist rows).map _) hnd
      rcases hplo : o.is_like with _ | bo
      · exact absurd hplo (hnn o (Or.inr rfl))
      · cases bo
        · have hh : handleLikeChange id ⟨.DELETE, none, some o⟩ s
              = { s with dislikesCount := max (s.dislikesCount - 1) 0 } := by
            unfold handleLikeChange
            rw [hg]
            simp [hplo]
          have hqLo : (fun x : LikeRecord =>
              decide (x.is_like = some true)) o = false := by
            simp [hplo]
          have hqDo : (fun x : LikeRecord =>
              decide (x.is_like = some false)) o = true := by
            simp [hplo]
          rw [hqLo] at hremL
          rw [hqDo] at hremD
          simp at hremL hremD
          rw [hh]
          refine ⟨?_, ?_, hndr⟩
          · show s.likesCount = _
            rw [hl]
            simp [initialLikes] at hremL ⊢
            omega
          · show max (s.dislikesCount - 1) 0 = _
            rw [hd]
            simp [initialDislikes] at hremD ⊢
            omega
        · have hh : handleLikeChange id ⟨.DELETE, none, some o⟩ s
              = { s with likesCount := max (s.likesCount - 1) 0 } := by
            unfold handleLikeChange
            rw [hg]
            simp [hplo]
          have hqLo : (fun x : LikeRecord =>
              decide (x.is_like = some true)) o = true := by
            simp [hplo]
          have hqDo : (fun x : LikeRecord =>
              decide (x.is_like = some false)) o = false := by
            simp [hplo]
          rw [hqLo] at hremL
          rw [hqDo] at hremD
          simp at hremL hremD
          rw [hh]
          refine ⟨?_, ?_, hndr⟩
          · show max (s.likesCount - 1) 0 = _
            rw [hl]
            simp [initialLikes] at hremL ⊢
            omega
          · show s.dislikesCount = _
            rw [hd]
            simp [initialDislikes] at hremD ⊢
            omega

/-- Folding a whole valid history through `handleLikeChange` keeps the
counters equal to the live-row counts of the reference semantics. -/
theorem c2_fold (id : String) (hid : id ≠ "") :
    ∀ (events : List (Payload LikeRecord))
      (rows rows2 : List LikeRecord) (s : PageState),
      foldRows rows events = some rows2 →
      (∀ p ∈ events, ∀ r : LikeRecord,
        p.new = some r ∨ p.old = some r → r.is_like ≠ none) →
      (∀ p ∈ events, ∀ r : LikeRecord,
        p.new = some r ∨ p.old = some r → r.news_id = id) →
      s.likesCount = (initialLikes rows : Int) →
      s.dislikesCount = (initialDislikes rows : Int) →
      (rows.map (fun x => x.id)).Nodup →
      (events.foldl (fun st p => handleLikeChange id p st) s).likesCount
          = (initialLikes rows2 : Int) ∧
      (events.foldl (fun st p => handleLikeChange id p st) s).dislikesCount
          = (initialDislikes rows2 : Int) := by
  intro events
  induction events with
  | nil =>
    intro rows rows2 s hfold _ _ hl hd _
    have hr : rows = rows2 := Option.some.inj hfold
    subst hr
    exact ⟨hl, hd⟩
  | cons p rest ih =>
    intro rows rows2 s hfold hnn hart hl hd hnd
    rw [foldRows] at hfold
    rcases hstep : stepRows rows p with _ | rowsMid
    · rw [hstep] at hfold
      exact Option.noConfusion hfold
    · rw [hstep] at hfold
      have hp := c2_step id p rows rowsMid s hstep
        (hnn p (List.mem_cons_self p rest))
        (hart p (List.mem_cons_self p rest)) hid hl hd hnd
      have hrest := ih rowsMid rows2 (handleLikeChange id p s) hfold
        (fun q hq => hnn q (List.mem_cons_of_mem p hq))
        (fun q hq => hart q (List.mem_cons_of_mem p hq))
        hp.1 hp.2.1 hp.2.2
      simpa [List.foldl_cons] using hrest

/-- C2: for every valid history of the reactions relation for the viewed
article — a sequence of insert/update/delete events in which inserts bring
fresh identifiers and update/delete before-images are the stored rows (so
identifiers are pairwise distinct, no identifier receives duplicate events,
and each row's events arrive in insert-before-update-before-delete order) —
where every row carries a non-null boolean polarity, folding the sequence
from zero counters yields final `likesCount` and `dislikesCount` equal to
the number of currently-live rows (per `foldRows`, the rows inserted and not
yet deleted) whose polarity is like, respectively dislike
(`initialLikes`/`initialDislikes` of the live rows). -/
theorem c2_fold_counts_live_rows (id : String)
    (events : List (Payload LikeRecord)) (rowsN : List LikeRecord)
    (s : PageState)
    (hfold : foldRows [] events = some rowsN)
    (hnn : ∀ p ∈ events, ∀ r : LikeRecord,
      p.new = some r ∨ p.old = some r → r.is_like ≠ none)
    (hart : ∀ p ∈ events, ∀ r : LikeRecord,
      p.new = some r ∨ p.old = some r → r.news_id = id)
    (hid : id ≠ "")
    (hl0 : s.likesCount = 0) (hd0 : s.dislikesCount = 0) :
    (events.foldl (fun st p => handleLikeChange id p st) s).likesCount
        = (initialLikes rowsN : Int) ∧
    (events.foldl (fun st p => handleLikeChange id p st) s).dislikesCount
        = (initialDislikes rowsN : Int) :=
  c2_fold id hid events [] rowsN s hfold hnn hart
    (by simp [hl0, initialLikes]) (by simp [hd0, initialDislikes]) (by simp)

/-- Witness for C2: one like insert on article `a1` from the zero state
ends with `likesCount = 1 = initialLikes [rLike]` and `dislikesCount = 0`. -/
theorem c2_witness :
    foldRows [] [(⟨.INSERT, some rLike, none⟩ : Payload LikeRecord)]
        = some [rLike] ∧
    ("a1" : String) ≠ "" ∧
    baseState.likesCount = 0 ∧ baseState.dislikesCount = 0 ∧
    (([(⟨.INSERT, some rLike, none⟩ : Payload LikeRecord)].foldl
        (fun st p => handleLikeChange "a1" p st) baseState).likesCount
          = (initialLikes [rLike] : Int) ∧
     ([(⟨.INSERT, some rLike, none⟩ : Payload LikeRecord)].foldl
        (fun st p => handleLikeChange "a1" p st) baseState).dislikesCount
          = (initialDislikes [rLike] : Int)) :=
  ⟨by decide, by decide, rfl, rfl,
   c2_fold_counts_live_rows "a1" _ [rLike] baseState (by decide)
     (by
       intro p hp r hr
       simp only [List.mem_singleton] at hp
       subst hp
       rcases hr with h | h
       · rw [Option.some.inj h.symm]
         decide
       · exact Option.noConfusion h)
     (by
       intro p hp r hr
       simp only [List.mem_singleton] at hp
       subst hp
       rcases hr with h | h
       · rw [Option.some.inj h.symm]
         decide
       · exact Option.noConfusion h)
     (by decide) rfl rfl⟩

end NewsRealtime
